import Mathlib

/-
Verification of the conversation memory and decision engine
(`AgentMemory` / `KaniService`) of the Kani LLM token-optimizer repository.

The TypeScript source is shallowly embedded: strings are Lean `String`
manipulated through `List Char` helpers that mirror the JavaScript string
methods used by the source (`toLowerCase`, `trim`, `includes`, `split`,
`startsWith`, `endsWith`, `replace` of a first occurrence), JavaScript
objects used as ordered string maps become association lists with
insertion-order-preserving overwrite, money amounts are exact rationals,
and the two fallible external effects (the OpenAI chat call and the wall
clock) are threaded explicitly: `processUserInput` takes the model outcome
as an `Option String` argument (`none` models a thrown error, `some raw`
a successful completion whose message content is `raw`), and response-log
timestamps are omitted because no engine logic reads them.

JavaScript regular expressions appearing in two spots (the simplified
condition dialect of `matchesSingleCondition`, after its `*`-to-`.*` and
`+`-to-`.+` rewriting, and raw knowledge-base patterns) are modelled by a
small backtracking engine over the dialect actually reachable there:
literal characters, `.`, the quantifiers `* + ?`, and top-level `|`;
patterns containing grouping or class metacharacters fail to parse and
are routed to the same catch-degradation path the source uses for invalid
patterns. No claim below exercises the regex branch.
-/

namespace Kani

/-! ### JavaScript string helpers on `List Char` -/

/-- JS `\s` for the ASCII range (space, tab, newline, CR, VT, FF). -/
def jsIsWs (c : Char) : Bool :=
  c = ' ' || c = '\t' || c = '\n' || c = '\r' || c = '\x0b' || c = '\x0c'

/-- JS `String.prototype.toLowerCase` (ASCII range, as used by the source). -/
def jsLowerL (l : List Char) : List Char := l.map Char.toLower

/-- JS `String.prototype.trim`. -/
def jsTrimL (l : List Char) : List Char :=
  ((l.dropWhile jsIsWs).reverse.dropWhile jsIsWs).reverse

/-- JS `hay.includes(sub)`: substring containment. -/
def jsIncludesL (sub : List Char) : List Char → Bool
  | [] => sub.isEmpty
  | c :: t => sub.isPrefixOf (c :: t) || jsIncludesL sub t

/-- JS `s.startsWith(p)`. -/
def jsStartsWithL (p l : List Char) : Bool := p.isPrefixOf l

/-- JS `s.endsWith(p)`. -/
def jsEndsWithL (p l : List Char) : Bool := p.reverse.isPrefixOf l.reverse

/-- JS `s.split(sep)` for a single-character separator (empty pieces kept). -/
def jsSplitCharL (sep : Char) : List Char → List (List Char)
  | [] => [[]]
  | c :: t =>
    if c = sep then [] :: jsSplitCharL sep t
    else
      match jsSplitCharL sep t with
      | h :: r => (c :: h) :: r
      | [] => [[c]]

/-- Worker for `jsSplitWsL`; the fuel is at least the input length, and each
step consumes at least one character, so the fuel never runs out. -/
def jsSplitWsAux : Nat → List Char → List (List Char)
  | 0, l => [l]
  | _ + 1, [] => [[]]
  | n + 1, l@(_ :: _) =>
    let word := l.takeWhile (fun c => !jsIsWs c)
    let rest := l.dropWhile (fun c => !jsIsWs c)
    match rest with
    | [] => [word]
    | _ :: _ => word :: jsSplitWsAux n (rest.dropWhile jsIsWs)

/-- JS `s.split(/\s+/)`: pieces between maximal whitespace runs; a leading or
trailing run contributes an empty piece, and `""` splits to `[""]`. -/
def jsSplitWsL (l : List Char) : List (List Char) :=
  jsSplitWsAux (l.length + 1) l

/-- JS `s.replace(pat, rep)` for plain-string `pat`: first occurrence only. -/
def jsReplaceFirstL (pat rep : List Char) : List Char → List Char
  | [] => if pat.isEmpty then rep else []
  | c :: t =>
    if pat.isPrefixOf (c :: t) then rep ++ (c :: t).drop pat.length
    else c :: jsReplaceFirstL pat rep t

/-- Read a JS object used as a string-keyed map: first binding of the key
(keys are unique by construction, since `objSet` overwrites in place). -/
def objGet {α : Type} (l : List (String × α)) (k : String) : Option α :=
  (l.find? (fun p => p.1 = k)).map (fun p => p.2)

/-- Write a JS object property: overwrite in place, else append (JS objects
keep insertion order for string keys). -/
def objSet {α : Type} (l : List (String × α)) (k : String) (v : α) : List (String × α) :=
  if l.any (fun p => p.1 = k) then
    l.map (fun p => if p.1 = k then (k, v) else p)
  else l ++ [(k, v)]

/-- The characters matched by an unflagged JS regex `.` — everything except
the four line terminators. -/
def jsDotChar (c : Char) : Bool :=
  !(c = '\n' || c = '\r' || c = '\u2028' || c = '\u2029')

/-! ### Mini regex engine for the reachable JS regex dialect -/

/-- Regex atom: `.` or a literal character. -/
inductive RAtom where
  | dot : RAtom
  | lit : Char → RAtom
deriving DecidableEq

/-- Regex piece: an atom with an optional quantifier. -/
inductive RPiece where
  | once : RAtom → RPiece
  | star : RAtom → RPiece
  | plus : RAtom → RPiece
  | opt : RAtom → RPiece
deriving DecidableEq

/-- Characters that would need grouping/class/anchor support; a pattern
containing one is treated as a construction failure (the source's `catch`). -/
def rBadChar (c : Char) : Bool :=
  c = '(' || c = ')' || c = '[' || c = ']' || c = '\x7b' || c = '\x7d' ||
  c = '\\' || c = '^' || c = '$'

/-- Quantifier characters. -/
def rQuantChar (c : Char) : Bool := c = '*' || c = '+' || c = '?'

/-- One atom from one character. -/
def rAtomOf (c : Char) : RAtom := if c = '.' then RAtom.dot else RAtom.lit c

/-- Parse one alternation branch (no `|` inside). -/
def parseBranch : List Char → Option (List RPiece)
  | [] => some []
  | [c] =>
    if rQuantChar c || rBadChar c then none else some [RPiece.once (rAtomOf c)]
  | c :: q :: rest =>
    if rQuantChar c || rBadChar c then none
    else if q = '*' then (parseBranch rest).map (fun ps => RPiece.star (rAtomOf c) :: ps)
    else if q = '+' then (parseBranch rest).map (fun ps => RPiece.plus (rAtomOf c) :: ps)
    else if q = '?' then (parseBranch rest).map (fun ps => RPiece.opt (rAtomOf c) :: ps)
    else (parseBranch (q :: rest)).map (fun ps => RPiece.once (rAtomOf c) :: ps)

/-- Parse a whole pattern: top-level `|` alternation of branches; any branch
failing to parse fails the construction. -/
def parseRegex (pat : List Char) : Option (List (List RPiece)) :=
  let branches := (jsSplitCharL '|' pat).map parseBranch
  if branches.all (fun b => b.isSome) then some (branches.map (fun b => b.getD []))
  else none

/-- Does the atom match the character? (`.` per JS excludes line terminators.) -/
def rAtomMatch (a : RAtom) (c : Char) : Bool :=
  match a with
  | RAtom.dot => jsDotChar c
  | RAtom.lit l => l = c

/-- Can the piece list match some prefix of the input? Fueled backtracking;
each call consumes a character or a piece, so fuel `input + pieces + 1`
suffices. -/
def rMatchHere : Nat → List RPiece → List Char → Bool
  | 0, _, _ => false
  | _ + 1, [], _ => true
  | n + 1, RPiece.once a :: ps, s =>
    match s with
    | [] => false
    | c :: s' => rAtomMatch a c && rMatchHere n ps s'
  | n + 1, RPiece.opt a :: ps, s =>
    rMatchHere n ps s ||
      (match s with
       | [] => false
       | c :: s' => rAtomMatch a c && rMatchHere n ps s')
  | n + 1, RPiece.star a :: ps, s =>
    rMatchHere n ps s ||
      (match s with
       | [] => false
       | c :: s' => rAtomMatch a c && rMatchHere n (RPiece.star a :: ps) s')
  | n + 1, RPiece.plus a :: ps, s =>
    match s with
    | [] => false
    | c :: s' => rAtomMatch a c && rMatchHere n (RPiece.star a :: ps) s'

/-- Unanchored: try the branch at every start position (JS `RegExp.test`). -/
def rAnyStart (br : List RPiece) : List Char → Bool
  | [] => rMatchHere (br.length + 1) br []
  | c :: t =>
    rMatchHere (br.length + (c :: t).length + 1) br (c :: t) || rAnyStart br t

/-- Test a parsed pattern against an input. -/
def rTest (branches : List (List RPiece)) (input : List Char) : Bool :=
  branches.any (fun br => rAnyStart br input)

/-! ### ConditionMatcher (`AgentMemory.matchesCondition` and helper) -/

/-- The source's simplified-pattern rewriting `replace(/\*\/g,'.*')` then
`replace(/\+/g,'.+')`; the first rewrite introduces no `+`, so one pass
over the characters is exact. -/
def condRegexString (l : List Char) : List Char :=
  l.flatMap (fun c =>
    if c = '*' then ['.', '*']
    else if c = '+' then ['.', '+']
    else [c])

/-- `AgentMemory.matchesSingleCondition`. Both arguments arrive already
lower-cased (and the response trimmed) from `matchesCondition`, exactly as
at the source's two call sites, so the `i` regex flag is inert. -/
def matchesSingleCondition (response condition : List Char) : Bool :=
  if jsStartsWithL "contains:".data condition then
    jsIncludesL (jsTrimL (condition.drop "contains:".length)) response
  else if jsStartsWithL "exact:".data condition then
    response = jsTrimL (condition.drop "exact:".length)
  else if jsStartsWithL "starts:".data condition then
    jsStartsWithL (jsTrimL (condition.drop "starts:".length)) response
  else if jsStartsWithL "ends:".data condition then
    jsEndsWithL (jsTrimL (condition.drop "ends:".length)) response
  else if condition.contains '*' || condition.contains '+' ||
          condition.contains '?' || condition.contains '|' then
    match parseRegex (condRegexString condition) with
    | some branches => rTest branches response
    | none => false
  else
    let words := jsSplitWsL response
    let repeatedWords :=
      (words.zip words.tail).filterMap
        (fun p => if p.2 = p.1 then some p.2 else none)
    if repeatedWords.length > 0 &&
        repeatedWords.any (fun w => jsIncludesL w condition) then
      true
    else
      jsIncludesL condition response

/-- `AgentMemory.matchesCondition`. -/
def matchesCondition (response condition : String) : Bool :=
  if jsLowerL condition.data = "any".data then true
  else
    let normalizedResponse := jsTrimL (jsLowerL response.data)
    if condition.data.contains ',' then
      ((jsSplitCharL ',' condition.data).map (fun o => jsLowerL (jsTrimL o))).any
        (fun o => matchesSingleCondition normalizedResponse o)
    else
      matchesSingleCondition normalizedResponse (jsLowerL condition.data)

/-! ### Token accounting (`apiConfig.ts` and `AgentMemory.updateTokenUsage`).
Dollar amounts are modelled as exact rationals; every theorem about them
compares the stored value with the very same arithmetic expression the
source computes, so the translation from JS numbers is faithful for the
properties stated here. -/

/-- `API_CONFIG.openai.costs.gpt35Input` ($ per 1K input tokens). -/
def gpt35Input : ℚ := 0.002

/-- `API_CONFIG.openai.costs.gpt35Output`. -/
def gpt35Output : ℚ := 0.002

/-- `API_CONFIG.openai.costs.gpt4Input`. -/
def gpt4Input : ℚ := 0.03

/-- `API_CONFIG.openai.costs.gpt4Output`. -/
def gpt4Output : ℚ := 0.06

/-- `API_CONFIG.openai.defaultModel`. -/
def defaultModel : String := "gpt-3.5-turbo"

/-- `calculateTokenCost` from `apiConfig.ts`. The JS signature gives `model`
the default value `API_CONFIG.openai.defaultModel`; call sites that omit the
argument are translated by passing `defaultModel` explicitly. -/
def calculateTokenCost (inputTokens outputTokens : Nat) (model : String) : ℚ :=
  if jsStartsWithL "gpt-4".data model.data then
    (inputTokens : ℚ) / 1000 * gpt4Input + (outputTokens : ℚ) / 1000 * gpt4Output
  else
    (inputTokens : ℚ) / 1000 * gpt35Input + (outputTokens : ℚ) / 1000 * gpt35Output

/-! ### Data model (`models/types` as consumed by `KaniService.ts`) -/

/-- `tokenUsage` record of `AgentMemory`. -/
structure TokenUsage where
  totalTokens : Nat
  inputTokens : Nat
  outputTokens : Nat
  estimatedCost : ℚ
deriving DecidableEq

/-- One entry of a state's `transitions` array. -/
structure Transition where
  condition : String
  targetState : String
deriving DecidableEq

/-- A state definition as read by the engine. Fields the source reads with
optional chaining / truthiness guards are `Option`s (`none` = JS
`undefined`). `questionVariants` is omitted: it is read only by
`getNextQuestion`, which no modelled operation calls. -/
structure StateDef where
  name : Option String
  question : Option String
  expectedInputs : Option String
  expectedKeywords : Option String
  transitions : Option (List Transition)
deriving DecidableEq

/-- One disqualification rule. -/
structure DisqRule where
  condition : String
  message : String
deriving DecidableEq

/-- One knowledge-base item (`pattern` / `response`). -/
structure KBItem where
  pattern : String
  response : String
deriving DecidableEq

/-- The business configuration fields `KaniService` reads. -/
structure Business where
  businessName : String
  businessType : String
  useCase : String
  agentRole : String
  tonePreference : String
  initialState : Option String
  stateDefinitions : List (String × StateDef)
  disqualificationRules : List DisqRule
  knowledgeBase : List KBItem
deriving DecidableEq

/-- A stored user response. The source also stores a wall-clock ISO
timestamp; it is omitted because no engine logic ever reads it. -/
structure StoredResponse where
  value : String
  valid : Bool
deriving DecidableEq

/-- The mutable state of `AgentMemory`. Transition-history entries are
`(from, to, reason)` triples. -/
structure Memory where
  stateDefinitions : List (String × StateDef)
  userResponses : List (String × StoredResponse)
  currentState : String
  transitionHistory : List (String × String × String)
  disqualificationRules : List DisqRule
  knowledgeBase : List KBItem
  tokenUsage : TokenUsage
  contextualData : List (String × String)
  currentPrompt : String
  usedLLM : Bool
deriving DecidableEq

/-- The `AgentMemory` constructor. `business.initialState || 'greeting'`
falls back on both JS `undefined` and the empty string. -/
def mkMemory (business : Business) : Memory :=
  { stateDefinitions := business.stateDefinitions
    userResponses := []
    currentState :=
      match business.initialState with
      | some s => if s = "" then "greeting" else s
      | none => "greeting"
    transitionHistory := []
    disqualificationRules := business.disqualificationRules
    knowledgeBase := business.knowledgeBase
    tokenUsage := { totalTokens := 0, inputTokens := 0, outputTokens := 0, estimatedCost := 0 }
    contextualData :=
      [("businessName", business.businessName), ("businessType", business.businessType),
       ("useCase", business.useCase), ("agentRole", business.agentRole),
       ("tonePreference", business.tonePreference)]
    currentPrompt := ""
    usedLLM := false }

/-! ### AgentMemory operations -/

/-- `AgentMemory.updateTokenUsage`. The source's call to
`calculateTokenCost` omits the model argument, so the JS default parameter
`API_CONFIG.openai.defaultModel` is what the cost table is keyed by. -/
def updateTokenUsage (m : Memory) (inputTokens outputTokens : Nat) : Memory :=
  { m with tokenUsage :=
    { inputTokens := m.tokenUsage.inputTokens + inputTokens
      outputTokens := m.tokenUsage.outputTokens + outputTokens
      totalTokens := m.tokenUsage.totalTokens + (inputTokens + outputTokens)
      estimatedCost :=
        calculateTokenCost (m.tokenUsage.inputTokens + inputTokens)
          (m.tokenUsage.outputTokens + outputTokens) defaultModel } }

/-- The derived contextual-data key for `AgentMemory.storeResponse`'s
entity-extraction chain, from the lower-cased `expectedInputs` hint. -/
def contextKeyFor (expectedType : List Char) : String :=
  if jsIncludesL "name".data expectedType then "userName"
  else if jsIncludesL "company".data expectedType || jsIncludesL "business".data expectedType then
    "userCompany"
  else if jsIncludesL "email".data expectedType then "userEmail"
  else if jsIncludesL "phone".data expectedType then "userPhone"
  else if jsIncludesL "preference".data expectedType || jsIncludesL "interest".data expectedType then
    "userPreference"
  else if jsIncludesL "order".data expectedType || jsIncludesL "product".data expectedType then
    "userOrder"
  else if jsIncludesL "address".data expectedType then "userAddress"
  else if jsIncludesL "feedback".data expectedType then "userFeedback"
  else
    match expectedType with
    | [] => "user"
    | c :: t => "user" ++ String.mk (c.toUpper :: t)

/-- `AgentMemory.storeResponse`. -/
def storeResponse (m : Memory) (questionId response : String) (valid : Bool) : Memory :=
  let m1 := { m with userResponses :=
    (objSet m.userResponses questionId { value := response, valid := valid }) }
  match objGet m.stateDefinitions m.currentState with
  | none => m1
  | some sd =>
    match sd.expectedInputs with
    | none => m1
    | some ei =>
      if ei = "" then m1
      else
        let expectedType := jsLowerL ei.data
        { m1 with
          contextualData := objSet m1.contextualData (contextKeyFor expectedType) response
          transitionHistory := m1.transitionHistory ++
            [(m.currentState, m.currentState, "Form data update: " ++ String.mk expectedType)] }

/-- The first transition of the current state whose condition matches; the
loop body of `AgentMemory.getNextState`. -/
def findMatchingTransition (sds : List (String × StateDef)) (cur : String)
    (response : String) : Option Transition :=
  match objGet sds cur with
  | none => none
  | some sd =>
    match sd.transitions with
    | none => none
    | some ts => ts.find? (fun t => matchesCondition response t.condition)

/-- `AgentMemory.getNextState`: returns the possibly-advanced memory and the
target state id (null when nothing matched). -/
def getNextState (m : Memory) (response : String) : Memory × Option String :=
  match findMatchingTransition m.stateDefinitions m.currentState response with
  | none => (m, none)
  | some t =>
    ({ m with
        transitionHistory := m.transitionHistory ++ [(m.currentState, t.targetState, t.condition)]
        currentState := t.targetState },
     some t.targetState)

/-- `[a-zA-Z0-9_]`, the variable-name character class of
`replaceContextVariables`. -/
def isVarChar (c : Char) : Bool := c.isAlpha || c.isDigit || c = '_'

/-- Worker for `replaceContextVariables`: the left-to-right global
replacement of `/\x7b([a-zA-Z0-9_]+)\x7d/g`. Each step consumes at least one
input character, so fuel `length + 1` never runs out. -/
def replaceVarsAux (facts : List (String × String)) : Nat → List Char → List Char
  | 0, l => l
  | _ + 1, [] => []
  | n + 1, c :: rest =>
    if c = '\x7b' then
      let name := rest.takeWhile isVarChar
      let rest2 := rest.dropWhile isVarChar
      if name.isEmpty then c :: replaceVarsAux facts n rest
      else
        match rest2 with
        | '\x7d' :: rest3 =>
          (match objGet facts (String.mk name) with
           | some v => v.data ++ replaceVarsAux facts n rest3
           | none => c :: (name ++ '\x7d' :: replaceVarsAux facts n rest3))
        | _ => c :: replaceVarsAux facts n rest
    else c :: replaceVarsAux facts n rest

/-- `AgentMemory.replaceContextVariables`: interpolate contextual facts into
placeholders, leaving unresolved placeholders verbatim. -/
def replaceContextVariables (m : Memory) (text : String) : String :=
  String.mk (replaceVarsAux m.contextualData (text.data.length + 1) text.data)

/-- The metacharacter probe `/[\|\+\*\?\(\)\[\]]/` of
`findKnowledgeBaseResponse`. -/
def kbRegexChar (c : Char) : Bool :=
  c = '|' || c = '+' || c = '*' || c = '?' || c = '(' || c = ')' || c = '[' || c = ']'

/-- `AgentMemory.findKnowledgeBaseResponse`. The `i` regex flag is modelled
by lower-casing the pattern (the query is already lower-cased); a pattern the
mini engine cannot parse takes the source's catch-branch substring
degradation. -/
def findKnowledgeBaseResponse (m : Memory) (query : String) : Option String :=
  if m.knowledgeBase.isEmpty then none
  else
    let normalizedQuery := jsTrimL (jsLowerL query.data)
    m.knowledgeBase.findSome? (fun item =>
      if item.pattern.data.any kbRegexChar then
        match parseRegex (jsLowerL item.pattern.data) with
        | some branches =>
          if rTest branches normalizedQuery then some (replaceContextVariables m item.response)
          else none
        | none =>
          if jsIncludesL (jsLowerL item.pattern.data) normalizedQuery then
            some (replaceContextVariables m item.response)
          else none
      else
        let patternTerms := jsSplitWsL (jsLowerL item.pattern.data)
        if patternTerms.any (fun term => jsIncludesL term normalizedQuery && term.length > 3) then
          some (replaceContextVariables m item.response)
        else none)

/-- `AgentMemory.isDisqualified`: the first matching rule's message, else
`none`. -/
def isDisqualified (m : Memory) (response : String) : Option String :=
  m.disqualificationRules.findSome? (fun rule =>
    if matchesCondition response rule.condition then some rule.message else none)

/-- The five business-identity context keys excluded from "form data". -/
def businessIdentityKey (k : String) : Bool :=
  k = "businessName" || k = "businessType" || k = "useCase" ||
  k = "agentRole" || k = "tonePreference"

/-- The known-data scan of `shouldUseLLM`'s leading question branch: some
non-identity contextual fact has a truthy value and its key (lower-cased,
first `"user"` removed) occurs in the lower-cased utterance. -/
def questionAboutKnownData (m : Memory) (response : String) : Bool :=
  m.contextualData.any (fun p =>
    !businessIdentityKey p.1 && p.2 ≠ "" &&
      jsIncludesL (jsReplaceFirstL "user".data [] (jsLowerL p.1.data))
        (jsLowerL response.data))

/-- `AgentMemory.shouldUseLLM`: the escalation decision. -/
def shouldUseLLM (m : Memory) (response : String) : Bool :=
  if jsEndsWithL "?".data response.data && response.data.length > 10 then
    !questionAboutKnownData m response
  else
    match objGet m.stateDefinitions m.currentState with
    | none => true
    | some sd =>
      match sd.transitions with
      | none => true
      | some transitions =>
        let expectedInputs := jsLowerL (sd.expectedInputs.getD "").data
        let expectedKeywords := jsLowerL (sd.expectedKeywords.getD "").data
        if jsIncludesL "reason".data expectedInputs ||
            jsIncludesL "objection".data expectedInputs ||
            jsIncludesL "explanation".data expectedInputs ||
            jsIncludesL "description".data expectedInputs ||
            jsIncludesL "feedback".data expectedInputs then
          true
        else if expectedInputs = "any".data || jsIncludesL "any response".data expectedInputs ||
            expectedKeywords = "any".data || jsIncludesL "any".data expectedKeywords then
          if transitions.any (fun t => jsTrimL (jsLowerL t.condition.data) = "any".data) then false
          else if transitions.any (fun t => matchesCondition response t.condition) then false
          else true
        else if transitions.any (fun t => matchesCondition response t.condition) then false
        else true

/-- `AgentMemory.getRelevantResponses`: the last at-most-7 response-log
entries (keys are unique, so `slice(-7)` over the key list selects exactly
the final entries). -/
def getRelevantResponses (m : Memory) : List (String × StoredResponse) :=
  m.userResponses.drop (m.userResponses.length - 7)

/-! ### KaniService -/

/-- The `KaniService` state. `openaiInitialized` models whether the OpenAI
client was constructed (`if (this.apiKey)` — truthy, i.e. nonempty). -/
structure KaniService where
  apiKey : String
  modelName : String
  business : Business
  memory : Memory
  responseDelay : Nat
  openaiInitialized : Bool
deriving DecidableEq

/-- The `KaniService` constructor. -/
def mkKaniService (apiKey : String) (business : Business) (modelName : String)
    (responseDelay : Nat) : KaniService :=
  { apiKey := apiKey
    modelName := modelName
    business := business
    memory := mkMemory business
    responseDelay := responseDelay
    openaiInitialized := apiKey ≠ "" }

/-- The value `processUserInput` resolves with. `response` is `none` when
the source would return JS `undefined` (a next state without a `question`). -/
structure TurnResult where
  response : Option String
  nextState : Option String
  disqualified : Bool
deriving DecidableEq

/-- `KaniService.generateSystemPrompt`, inlining the parts of
`buildMinimalContext` the template reads (current state, relevant responses,
state definition, contextual data; `recentTransitions` is never rendered). -/
def generateSystemPrompt (b : Business) (m : Memory) : String :=
  let sd := objGet m.stateDefinitions m.currentState
  let question := (sd.bind (fun s => s.question)).getD ""
  let expectedInputs := (sd.bind (fun s => s.expectedInputs)).getD ""
  let expectedKeywords := (sd.bind (fun s => s.expectedKeywords)).getD ""
  let responsesText := String.intercalate "\n"
    ((getRelevantResponses m).map (fun p => "- " ++ p.1 ++ ": \"" ++ p.2.value ++ "\""))
  let contextKeys := m.contextualData.filter (fun p => !businessIdentityKey p.1)
  let contextDataText :=
    if contextKeys.length > 0 then
      String.intercalate "\n" (contextKeys.map (fun p => "- " ++ p.1 ++ ": " ++ p.2))
    else "No additional user data collected yet."
  "You are a virtual assistant for " ++ b.businessName ++ ", a " ++ b.businessType ++
  " business.\n\nROLE: " ++ b.agentRole ++ " helping with " ++ b.useCase ++
  "\n\nCURRENT STATE: " ++ m.currentState ++
  "\nCURRENT QUESTION: \"" ++ question ++
  "\"\nEXPECTED INPUTS: " ++ expectedInputs ++
  "\nEXPECTED KEYWORDS: " ++ expectedKeywords ++
  "\n\nUSER CONTEXT (FORM DATA - MOST IMPORTANT):\n" ++ contextDataText ++
  "\n\nRECENT RESPONSES:\n" ++ responsesText ++
  "\n\nRESPONSE GUIDELINES:\n1. Use " ++
  (if b.tonePreference = "" then "professional" else b.tonePreference) ++
  " tone\n2. Be very concise (under 50 words)\n3. Stay focused on answering the current question \n4. Reference the form data whenever relevant\n5. Do not ask new questions unless absolutely necessary\n6. If user is off-topic, briefly acknowledge then guide back to the current question\n7. If user asks about form data they\x27ve provided, answer directly using that data\n8. Avoid unnecessary explanations or elaborations\n9. Always relate your response to the user context data whenever possible to maintain continuity\n10. When using LLM, try to tie responses back to previous form data for token optimization\n11. Preserve correct spelling of words - do not truncate words with double letters\n12. IMPORTANT: For words like \"well\", \"address\", \"follow\", etc., preserve all letters\n\nAfter responding, guide the user back to the conversation flow established in the current question."

/-- The display-name scan of `determineStateFromLLMResponse`: the first
transition of the current state whose target state exists, has a truthy
`name`, and whose name occurs case-insensitively in the model's reply. -/
def scanStateNames (svc : KaniService) (m : Memory) (llmResponse : String) : Option String :=
  match objGet m.stateDefinitions m.currentState with
  | none => none
  | some sd =>
    match sd.transitions with
    | none => none
    | some ts =>
      ts.findSome? (fun t =>
        match objGet svc.business.stateDefinitions t.targetState with
        | none => none
        | some target =>
          match target.name with
          | none => none
          | some nm =>
            if nm ≠ "" && jsIncludesL (jsLowerL nm.data) (jsLowerL llmResponse.data) then
              some t.targetState
            else none)

/-- `KaniService.determineStateFromLLMResponse`: first re-run the rule-based
transition on the original utterance, then fall back to the display-name
scan of the reply. -/
def determineStateFromLLMResponse (svc : KaniService) (m : Memory)
    (llmResponse userInput : String) : Memory × Option String :=
  match getNextState m userInput with
  | (m1, some s) => (m1, some s)
  | (m1, none) => (m1, scanStateNames svc m1 llmResponse)

/-- Fixed response when the OpenAI client was never initialized. -/
def noApiKeyMsg : String :=
  "I\x27m not fully configured to respond intelligently yet. Please check your OpenAI API key configuration."

/-- Fixed apologetic response of the model-failure catch block. -/
def modelFailureMsg : String :=
  "I\x27m having trouble understanding. Could you please rephrase that?"

/-- Fallback content when the completion has falsy message content. -/
def emptyContentMsg : String :=
  "I apologize, but I couldn\x27t process that response."

/-- Default terminal message when a disqualification rule's message is falsy. -/
def defaultDisqMsg : String := "Sorry, we cannot proceed further."

/-- `/(.)\1{2,}/.test(response)`: three identical consecutive characters
somewhere, the first matched by `.` (so not a line terminator). -/
def hasRun3 : List Char → Bool
  | a :: b :: c :: t => (a = b && b = c && jsDotChar a) || hasRun3 (b :: c :: t)
  | _ => false

/-- How one maximal run is emitted by `replace(/(.)\1{2,}/g, '$1$1')`: a run
of three or more of a `.`-matchable character collapses to two copies;
every other run is emitted unchanged. -/
def emitRun (c : Char) (n : Nat) : List Char :=
  if 3 ≤ n && jsDotChar c then [c, c] else List.replicate n c

/-- Worker for `collapseRuns`: `c` is the current run's character, `n` its
length so far. -/
def collapseAux (c : Char) (n : Nat) : List Char → List Char
  | [] => emitRun c n
  | d :: rest =>
    if d = c then collapseAux c (n + 1) rest
    else emitRun c n ++ collapseAux d 1 rest

/-- The global replacement `replace(/(.)\1{2,}/g, '$1$1')`: each maximal run
processed by `emitRun`. -/
def collapseRuns : List Char → List Char
  | [] => []
  | c :: rest => collapseAux c 1 rest

/-- The duplication repair in `processUserInput`: the replacement runs only
when the test fires, exactly as in the source. -/
def jsFixDuplication (l : List Char) : List Char :=
  if hasRun3 l then collapseRuns l else l

/-- The body of the `try` block of `processUserInput` after
`setLLMUsed(true)` (which `mem` has already applied): client check, prompt
construction, model call with outcome `modelOutcome`, duplication repair,
token accounting, and state inference. -/
def llmFallbackPath (svc : KaniService) (mem : Memory) (input : String)
    (modelOutcome : Option String) : KaniService × TurnResult :=
  if !svc.openaiInitialized then
    ({ svc with memory := mem },
     { response := some noApiKeyMsg, nextState := none, disqualified := false })
  else
    let prompt := generateSystemPrompt svc.business mem
    let mem4 := { mem with currentPrompt := prompt }
    let inputTokenEstimate := (prompt.data.length + input.data.length + 3) / 4
    match modelOutcome with
    | none =>
      ({ svc with memory := mem4 },
       { response := some modelFailureMsg, nextState := none, disqualified := false })
    | some raw =>
      let response := String.mk (jsFixDuplication (if raw = "" then emptyContentMsg else raw).data)
      let outputTokenEstimate := (response.data.length + 3) / 4
      let mem5 := updateTokenUsage mem4 inputTokenEstimate outputTokenEstimate
      match determineStateFromLLMResponse svc mem5 response input with
      | (mem6, next2) =>
        ({ svc with memory := mem6 },
         { response := some response, nextState := next2, disqualified := false })

/-- `processUserInput` after the knowledge-base and disqualification
checks: store the response, try a rule-based transition, else fall back. -/
def processTurnAfterChecks (svc : KaniService) (input : String)
    (modelOutcome : Option String) : KaniService × TurnResult :=
  let mem1 := storeResponse svc.memory svc.memory.currentState input true
  match getNextState mem1 input with
  | (mem2, some ns) =>
    (match objGet mem2.stateDefinitions ns with
     | some nextStateDefinition =>
       ({ svc with memory := { mem2 with usedLLM := false } },
        { response := nextStateDefinition.question, nextState := some ns, disqualified := false })
     | none => llmFallbackPath svc { mem2 with usedLLM := true } input modelOutcome)
  | (mem2, none) => llmFallbackPath svc { mem2 with usedLLM := true } input modelOutcome

/-- `processUserInput` after the knowledge-base check: the disqualification
check, then the rest of the turn. -/
def processAfterKnowledge (svc : KaniService) (input : String)
    (modelOutcome : Option String) : KaniService × TurnResult :=
  match isDisqualified svc.memory input with
  | some msg =>
    (svc,
     { response := some (if msg = "" then defaultDisqMsg else msg)
       nextState := none, disqualified := true })
  | none => processTurnAfterChecks svc input modelOutcome

/-- `KaniService.processUserInput`. `modelOutcome` is the outcome of the one
possible OpenAI call this turn: `none` models a thrown error (network,
quota, or the explicit invalid-shape throw), `some raw` a completion whose
message content is `raw` (`""` for falsy content). The `if
(knowledgeResponse)` guard is JS-truthy, so an empty knowledge answer falls
through. -/
def processUserInput (svc : KaniService) (input : String)
    (modelOutcome : Option String) : KaniService × TurnResult :=
  match findKnowledgeBaseResponse svc.memory input with
  | some kr =>
    if kr = "" then processAfterKnowledge svc input modelOutcome
    else
      ({ svc with memory := { svc.memory with usedLLM := false } },
       { response := some kr, nextState := some svc.memory.currentState, disqualified := false })
  | none => processAfterKnowledge svc input modelOutcome

/-! ### Run-length view used to state the duplication-repair claim -/

/-- Worker for `runsL`. -/
def runsAux (c : Char) (n : Nat) : List Char → List (Char × Nat)
  | [] => [(c, n)]
  | d :: rest =>
    if d = c then runsAux c (n + 1) rest else (c, n) :: runsAux d 1 rest

/-- Run-length encoding: the maximal runs of a character list. -/
def runsL : List Char → List (Char × Nat)
  | [] => []
  | c :: rest => runsAux c 1 rest

/-! ### Derived views used to state the claims -/

/-- How the duplication repair treats one maximal run: a run of three or
more of a `.`-matchable character becomes exactly two; anything else is
kept. -/
def stepRun (p : Char × Nat) : Char × Nat :=
  if 3 ≤ p.2 && jsDotChar p.1 then (p.1, 2) else p

/-- The open-ended-content test of `shouldUseLLM` on the current state's
`expectedInputs` hint (lower-cased, `undefined` read as `''`). -/
def hintIndicatesOpenEnded (m : Memory) : Bool :=
  let ei := jsLowerL (((objGet m.stateDefinitions m.currentState).bind
    (fun sd => sd.expectedInputs)).getD "").data
  jsIncludesL "reason".data ei || jsIncludesL "objection".data ei ||
  jsIncludesL "explanation".data ei || jsIncludesL "description".data ei ||
  jsIncludesL "feedback".data ei

/-- The memory at the point where `processUserInput` has stored the response
and run the rule-based transition attempt. -/
def memAfterRuleCheck (svc : KaniService) (input : String) : Memory :=
  (getNextState (storeResponse svc.memory svc.memory.currentState input true) input).1

/-- Whether a `processUserInput` turn reaches the generative fallback: the
rule-based transition either matched nothing, or led to a target state with
no definition (a dangling-target configuration error). -/
def reachesLLMFallback (svc : KaniService) (input : String) : Bool :=
  match getNextState (storeResponse svc.memory svc.memory.currentState input true) input with
  | (_, none) => true
  | (m2, some s) => (objGet m2.stateDefinitions s).isNone

/-- The reply text after the falsy-content fallback and duplication repair,
as computed inside `llmFallbackPath`. -/
def llmReplyText (reply : String) : String :=
  String.mk (jsFixDuplication (if reply = "" then emptyContentMsg else reply).data)

/-! ### Concrete configurations used by counterexamples and witnesses -/

/-- A small configuration: one transition out of `greeting`, no
disqualification rules, empty knowledge base. -/
def bizA : Business :=
  { businessName := "Acme", businessType := "retail", useCase := "sales support",
    agentRole := "assistant", tonePreference := "friendly",
    initialState := some "greeting",
    stateDefinitions :=
      [("greeting",
        { name := some "Greeting", question := some "How can I help you today?",
          expectedInputs := none, expectedKeywords := none,
          transitions := some [{ condition := "contains:yes", targetState := "done" }] }),
       ("done",
        { name := some "Wrap Up", question := some "Great, goodbye!",
          expectedInputs := none, expectedKeywords := none, transitions := none })],
    disqualificationRules := [],
    knowledgeBase := [] }

/-- A service over `bizA` with an API key and the default model. -/
def svcA : KaniService := mkKaniService "key" bizA "gpt-3.5-turbo" 750

/-- A service over `bizA` configured with a GPT-4 model name. -/
def svcA4 : KaniService := mkKaniService "key" bizA "gpt-4" 750

/-- A configuration whose first disqualification rule carries an empty
terminal message. -/
def bizC1 : Business :=
  { bizA with disqualificationRules := [{ condition := "any", message := "" }] }

/-- Service over `bizC1`. -/
def svcC1 : KaniService := mkKaniService "key" bizC1 "gpt-3.5-turbo" 750

/-- A configuration with an ordinary disqualification rule. -/
def bizC1b : Business :=
  { bizA with disqualificationRules :=
      [{ condition := "contains:cancel", message := "We only serve businesses." }] }

/-- Service over `bizC1b`. -/
def svcC1b : KaniService := mkKaniService "key" bizC1b "gpt-3.5-turbo" 750

/-- A flow whose first state extracts the user's name and whose second state
has the open-ended hint `"reason or objection"`. -/
def bizC6 : Business :=
  { businessName := "Acme", businessType := "retail", useCase := "sales support",
    agentRole := "assistant", tonePreference := "friendly",
    initialState := some "ask",
    stateDefinitions :=
      [("ask",
        { name := some "Ask Name", question := some "What is your name?",
          expectedInputs := some "name", expectedKeywords := none,
          transitions := some [{ condition := "any", targetState := "why" }] }),
       ("why",
        { name := some "Why", question := some "Why do you hesitate?",
          expectedInputs := some "reason or objection", expectedKeywords := none,
          transitions := some [{ condition := "contains:because", targetState := "done" }] }),
       ("done",
        { name := some "Done", question := some "Thanks!",
          expectedInputs := none, expectedKeywords := none, transitions := none })],
    disqualificationRules := [],
    knowledgeBase := [] }

/-- The session over `bizC6` after answering the name question with `"Bob"`
and transitioning to the `why` state: reached purely through the engine's
own operations. -/
def memC6 : Memory :=
  (getNextState (storeResponse (mkMemory bizC6) "ask" "Bob" true) "Bob").1

/-- A configuration with the knowledge item of the claim about
interpolation, and a company-extracting state. -/
def bizKB : Business :=
  { businessName := "Acme", businessType := "retail", useCase := "sales support",
    agentRole := "assistant", tonePreference := "friendly",
    initialState := some "askCompany",
    stateDefinitions :=
      [("askCompany",
        { name := some "Ask Company", question := some "What company are you with?",
          expectedInputs := some "company", expectedKeywords := none,
          transitions := some [{ condition := "any", targetState := "done" }] }),
       ("done",
        { name := some "Done", question := some "Thanks!",
          expectedInputs := none, expectedKeywords := none, transitions := none })],
    disqualificationRules := [],
    knowledgeBase :=
      [{ pattern := "where are you located", response := "We are in \x7buserCompany\x7d." }] }

/-- The session over `bizKB` after the user answered `"Acme"` to the company
question, so the contextual fact `userCompany = "Acme"` is stored. -/
def memKB : Memory := storeResponse (mkMemory bizKB) "askCompany" "Acme" true

/-! ### Helper lemmas -/

/-- A condition containing a comma cannot lower-case to `"any"`. -/
theorem lower_eq_any_no_comma (l : List Char) (hc : l.contains ',' = true) :
    (jsLowerL l = "any".data) = False := by
  simp only [eq_iff_iff, iff_false]
  intro h
  have hmem : ',' ∈ l := by simpa [List.contains] using hc
  have h2 : Char.toLower ',' ∈ jsLowerL l := List.mem_map_of_mem _ hmem
  rw [h] at h2
  revert h2
  decide

/-- On a condition of the `exact:` form, `matchesSingleCondition` is
full-string equality with the trimmed content. -/
theorem msc_exact (resp content : List Char) :
    matchesSingleCondition resp ("exact:".data ++ content) =
      decide (resp = jsTrimL content) := by
  unfold matchesSingleCondition
  rw [show jsStartsWithL "contains:".data ("exact:".data ++ content) = false by
        simp [jsStartsWithL, List.isPrefixOf]]
  rw [show jsStartsWithL "exact:".data ("exact:".data ++ content) = true by
        simp [jsStartsWithL, List.isPrefixOf]]
  rw [show List.drop "exact:".length ("exact:".data ++ content) = content from rfl]
  simp

/-- `matchesCondition` under `exact:` compares the trimmed lower-cased
utterance with the trimmed lower-cased condition text. -/
theorem matchesCondition_exact (u s : String) (h : s.data.contains ',' = false) :
    matchesCondition u ("exact:" ++ s) =
      decide (jsTrimL (jsLowerL u.data) = jsTrimL (jsLowerL s.data)) := by
  unfold matchesCondition
  rw [show ("exact:" ++ s).data = "exact:".data ++ s.data from rfl]
  rw [show jsLowerL ("exact:".data ++ s.data) = "exact:".data ++ jsLowerL s.data by
        simp [jsLowerL]]
  rw [show (("exact:".data ++ s.data).contains ',') = false by
        simp [List.contains] at h
        simp [List.contains, h]]
  have hne : ("exact:".data ++ jsLowerL s.data) ≠ "any".data := by
    intro hx
    have := congrArg List.length hx
    simp [jsLowerL] at this
  rw [if_neg hne]
  simpa using msc_exact (jsTrimL (jsLowerL u.data)) (jsLowerL s.data)

/-- `storeResponse` never changes the state definitions. -/
theorem storeResponse_stateDefinitions (m : Memory) (q r : String) (v : Bool) :
    (storeResponse m q r v).stateDefinitions = m.stateDefinitions := by
  unfold storeResponse
  cases hsd : objGet m.stateDefinitions m.currentState with
  | none => rfl
  | some sd =>
    cases hei : sd.expectedInputs with
    | none => simp [hei]
    | some ei => by_cases h : ei = "" <;> simp [hei, h]

/-- `storeResponse` never changes the current state. -/
theorem storeResponse_currentState (m : Memory) (q r : String) (v : Bool) :
    (storeResponse m q r v).currentState = m.currentState := by
  unfold storeResponse
  cases hsd : objGet m.stateDefinitions m.currentState with
  | none => rfl
  | some sd =>
    cases hei : sd.expectedInputs with
    | none => simp [hei]
    | some ei => by_cases h : ei = "" <;> simp [hei, h]

/-- `storeResponse` never changes the token usage. -/
theorem storeResponse_tokenUsage (m : Memory) (q r : String) (v : Bool) :
    (storeResponse m q r v).tokenUsage = m.tokenUsage := by
  unfold storeResponse
  cases hsd : objGet m.stateDefinitions m.currentState with
  | none => rfl
  | some sd =>
    cases hei : sd.expectedInputs with
    | none => simp [hei]
    | some ei => by_cases h : ei = "" <;> simp [hei, h]

/-- The response-log update performed by `storeResponse`. -/
theorem storeResponse_userResponses (m : Memory) (q r : String) (v : Bool) :
    (storeResponse m q r v).userResponses =
      objSet m.userResponses q { value := r, valid := v } := by
  unfold storeResponse
  cases hsd : objGet m.stateDefinitions m.currentState with
  | none => rfl
  | some sd =>
    cases hei : sd.expectedInputs with
    | none => simp [hei]
    | some ei => by_cases h : ei = "" <;> simp [hei, h]

/-- When no transition matches, `getNextState` leaves the memory unchanged. -/
theorem getNextState_eq_of_none (m : Memory) (u : String)
    (h : (getNextState m u).2 = none) : getNextState m u = (m, none) := by
  unfold getNextState at h
  unfold getNextState
  cases hf : findMatchingTransition m.stateDefinitions m.currentState u with
  | none => rfl
  | some t => rw [hf] at h; simp at h

/-- The display-name scan reads only the state definitions and current
state of the memory. -/
theorem scanStateNames_congr (svc : KaniService) (m mm : Memory) (x : String)
    (h1 : m.stateDefinitions = mm.stateDefinitions)
    (h2 : m.currentState = mm.currentState) :
    scanStateNames svc m x = scanStateNames svc mm x := by
  unfold scanStateNames
  rw [h1, h2]

/-- On a turn that reaches the fallback, re-running the transition matcher
at the post-check memory finds nothing: either nothing matched before, or
the turn advanced into a state with no definition. -/
theorem rerun_find_none (svc : KaniService) (input : String)
    (h : reachesLLMFallback svc input = true) :
    findMatchingTransition (memAfterRuleCheck svc input).stateDefinitions
      (memAfterRuleCheck svc input).currentState input = none := by
  unfold reachesLLMFallback at h
  unfold memAfterRuleCheck
  unfold getNextState at h
  unfold getNextState
  cases hf : findMatchingTransition
      (storeResponse svc.memory svc.memory.currentState input true).stateDefinitions
      (storeResponse svc.memory svc.memory.currentState input true).currentState input with
  | none => simpa using hf
  | some t =>
    rw [hf] at h
    simp at h
    simp only [hf]
    unfold findMatchingTransition
    simp [h]

/-- The configured default model is not in the GPT-4 family. -/
theorem gpt4_not_default : jsStartsWithL "gpt-4".data defaultModel.data = false := by decide

/-- `calculateTokenCost` at the default model applies the GPT-3.5 rates. -/
theorem calcCost_default_eq (i o : Nat) :
    calculateTokenCost i o defaultModel =
      (i : ℚ) / 1000 * gpt35Input + (o : ℚ) / 1000 * gpt35Output := by
  unfold calculateTokenCost
  rw [gpt4_not_default]
  simp

/-- `emitRun` always emits a replicate of the (possibly capped) length. -/
theorem emitRun_eq_replicate (c : Char) (n : Nat) :
    emitRun c n = List.replicate (if 3 ≤ n && jsDotChar c then 2 else n) c := by
  unfold emitRun
  split
  · rfl
  · rfl

/-- `stepRun` caps the same lengths `emitRun` caps. -/
theorem stepRun_eq (c : Char) (n : Nat) :
    stepRun (c, n) = (c, if 3 ≤ n && jsDotChar c then 2 else n) := by
  unfold stepRun
  split
  · rfl
  · rfl

/-- The collapse worker's output starts with the current run's character. -/
theorem collapseAux_head (rest : List Char) : ∀ (d : Char) (k : Nat), 0 < k →
    ∃ l2, collapseAux d k rest = d :: l2 := by
  induction rest with
  | nil =>
    intro d k hk
    rw [show collapseAux d k [] = emitRun d k from rfl, emitRun_eq_replicate]
    split
    · exact ⟨[d], rfl⟩
    · match k, hk with
      | m + 1, _ => exact ⟨List.replicate m d, by simp [List.replicate]⟩
  | cons e r ih =>
    intro d k hk
    by_cases he : e = d
    · rw [show collapseAux d k (e :: r) = if e = d then collapseAux d (k+1) r
            else emitRun d k ++ collapseAux e 1 r from rfl, if_pos he]
      exact ih d (k+1) (by omega)
    · rw [show collapseAux d k (e :: r) = if e = d then collapseAux d (k+1) r
            else emitRun d k ++ collapseAux e 1 r from rfl, if_neg he]
      rw [emitRun_eq_replicate]
      split
      · exact ⟨[d] ++ collapseAux e 1 r, rfl⟩
      · match k, hk with
        | m + 1, _ => exact ⟨List.replicate m d ++ collapseAux e 1 r, by simp [List.replicate]⟩

/-- Run-length encoding of a pure replicate, with a pending run prefix. -/
theorem runsAux_replicate_nil (m : Nat) (c : Char) :
    ∀ k, runsAux c k (List.replicate m c) = [(c, k + m)] := by
  induction m with
  | zero => intro k; simp [runsAux, List.replicate]
  | succ mm ih =>
    intro k
    rw [show List.replicate (mm + 1) c = c :: List.replicate mm c from rfl]
    rw [show runsAux c k (c :: List.replicate mm c) =
          if c = c then runsAux c (k+1) (List.replicate mm c)
          else (c, k) :: runsAux c 1 (List.replicate mm c) from rfl, if_pos rfl]
    rw [ih (k+1), Nat.add_assoc, Nat.add_comm 1 mm]

/-- Run-length encoding across a run boundary. -/
theorem runsAux_replicate_append (m : Nat) (c d : Char) (l : List Char) (hne : d ≠ c) :
    ∀ k, runsAux c k (List.replicate m c ++ d :: l) = (c, k + m) :: runsAux d 1 l := by
  induction m with
  | zero =>
    intro k
    rw [show List.replicate 0 c ++ d :: l = d :: l from rfl]
    rw [show runsAux c k (d :: l) = if d = c then runsAux c (k+1) l
          else (c, k) :: runsAux d 1 l from rfl, if_neg hne]
    simp
  | succ mm ih =>
    intro k
    rw [show List.replicate (mm + 1) c ++ d :: l = c :: (List.replicate mm c ++ d :: l) from rfl]
    rw [show runsAux c k (c :: (List.replicate mm c ++ d :: l)) =
          if c = c then runsAux c (k+1) (List.replicate mm c ++ d :: l)
          else (c, k) :: runsAux c 1 (List.replicate mm c ++ d :: l) from rfl, if_pos rfl]
    rw [ih (k+1), Nat.add_assoc, Nat.add_comm 1 mm]

/-- The run-length view of the collapse worker: each pending-plus-remaining
run is emitted through `stepRun`. -/
theorem runsL_collapseAux (t : List Char) : ∀ (c : Char) (n : Nat), 0 < n →
    runsL (collapseAux c n t) = (runsAux c n t).map stepRun := by
  induction t with
  | nil =>
    intro c n hn
    rw [show collapseAux c n [] = emitRun c n from rfl,
        show runsAux c n [] = [(c, n)] from rfl,
        emitRun_eq_replicate, List.map_singleton, stepRun_eq]
    split
    · rw [show runsL (List.replicate 2 c) = runsAux c 1 (List.replicate 1 c) from rfl,
          runsAux_replicate_nil]
    · match n, hn with
      | m + 1, _ =>
        rw [show List.replicate (m+1) c = c :: List.replicate m c from rfl,
            show runsL (c :: List.replicate m c) = runsAux c 1 (List.replicate m c) from rfl,
            runsAux_replicate_nil, Nat.add_comm 1 m]
  | cons d r ih =>
    intro c n hn
    by_cases hd : d = c
    · subst hd
      rw [show collapseAux d n (d :: r) = collapseAux d (n+1) r from by
            rw [show collapseAux d n (d :: r) = if d = d then collapseAux d (n+1) r
                  else emitRun d n ++ collapseAux d 1 r from rfl, if_pos rfl],
          show runsAux d n (d :: r) = runsAux d (n+1) r from by
            rw [show runsAux d n (d :: r) = if d = d then runsAux d (n+1) r
                  else (d, n) :: runsAux d 1 r from rfl, if_pos rfl]]
      exact ih d (n+1) (by omega)
    · rw [show collapseAux c n (d :: r) = if d = c then collapseAux c (n+1) r
            else emitRun c n ++ collapseAux d 1 r from rfl, if_neg hd,
          show runsAux c n (d :: r) = if d = c then runsAux c (n+1) r
            else (c, n) :: runsAux d 1 r from rfl, if_neg hd]
      obtain ⟨l2, hl2⟩ := collapseAux_head r d 1 (by omega)
      rw [emitRun_eq_replicate, hl2, List.map_cons, stepRun_eq]
      have hrep : 0 < (if 3 ≤ n && jsDotChar c then 2 else n) := by
        split <;> omega
      rw [show runsL (List.replicate (if 3 ≤ n && jsDotChar c then 2 else n) c ++ d :: l2) =
            runsAux c 1
              (List.replicate ((if 3 ≤ n && jsDotChar c then 2 else n) - 1) c ++ d :: l2) from by
          match (if 3 ≤ n && jsDotChar c then 2 else n), hrep with
          | mm + 1, _ => rfl]
      rw [runsAux_replicate_append _ _ _ _ hd]
      have hih := ih d 1 (by omega)
      rw [hl2] at hih
      rw [show runsL (d :: l2) = runsAux d 1 l2 from rfl] at hih
      rw [hih]
      congr 2
      split <;> omega

/-- The global replacement, in run-length view: every run goes through
`stepRun`. -/
theorem runsL_collapseRuns (l : List Char) :
    runsL (collapseRuns l) = (runsL l).map stepRun := by
  cases l with
  | nil => rfl
  | cons c r => exact runsL_collapseAux r c 1 (by omega)

/-- The duplication test on a pure replicate. -/
theorem hasRun3_replicate (c : Char) : ∀ n : Nat,
    hasRun3 (List.replicate n c) = (decide (3 ≤ n) && jsDotChar c) := by
  intro n
  induction n using Nat.strong_induction_on with
  | _ n ih =>
    match n with
    | 0 => simp [List.replicate, hasRun3]
    | 1 => simp [List.replicate, hasRun3]
    | 2 => simp [List.replicate, hasRun3]
    | m + 3 =>
      rw [show List.replicate (m + 3) c = c :: c :: c :: List.replicate m c from rfl]
      rw [show hasRun3 (c :: c :: c :: List.replicate m c) =
            ((c = c && c = c && jsDotChar c) || hasRun3 (c :: c :: List.replicate m c)) from rfl]
      rw [show (c :: c :: List.replicate m c) = List.replicate (m + 2) c from by
            simp [List.replicate]]
      rw [ih (m + 2) (by omega)]
      simp only [decide_eq_true_eq]
      cases hdc : jsDotChar c <;> cases Nat.decLe 3 (m + 2) <;> simp_all

/-- The duplication test across a run boundary: windows spanning the
boundary never fire. -/
theorem hasRun3_replicate_append (c d : Char) (l : List Char) (hne : d ≠ c) : ∀ n : Nat,
    hasRun3 (List.replicate n c ++ d :: l) =
      ((decide (3 ≤ n) && jsDotChar c) || hasRun3 (d :: l)) := by
  intro n
  induction n using Nat.strong_induction_on with
  | _ n ih =>
    match n with
    | 0 => simp [List.replicate]
    | 1 =>
      rw [show List.replicate 1 c ++ d :: l = c :: d :: l from rfl]
      cases l with
      | nil => simp [hasRun3]
      | cons e l2 =>
        rw [show hasRun3 (c :: d :: e :: l2) =
              ((c = d && d = e && jsDotChar c) || hasRun3 (d :: e :: l2)) from rfl]
        have hcd : (c = d) = False := by simp [Ne.symm hne]
        simp [hcd]
    | 2 =>
      rw [show List.replicate 2 c ++ d :: l = c :: c :: d :: l from rfl]
      rw [show hasRun3 (c :: c :: d :: l) =
            ((c = c && c = d && jsDotChar c) || hasRun3 (c :: d :: l)) from rfl]
      have h1 := ih 1 (by omega)
      rw [show List.replicate 1 c ++ d :: l = c :: d :: l from rfl] at h1
      rw [h1]
      have hcd : (c = d) = False := by simp [Ne.symm hne]
      simp [hcd]
    | m + 3 =>
      rw [show List.replicate (m + 3) c ++ d :: l =
            c :: c :: c :: (List.replicate m c ++ d :: l) from rfl]
      rw [show hasRun3 (c :: c :: c :: (List.replicate m c ++ d :: l)) =
            ((c = c && c = c && jsDotChar c) ||
              hasRun3 (c :: c :: (List.replicate m c ++ d :: l))) from rfl]
      rw [show (c :: c :: (List.replicate m c ++ d :: l)) =
            List.replicate (m + 2) c ++ d :: l from by simp [List.replicate]]
      rw [ih (m + 2) (by omega)]
      cases hdc : jsDotChar c <;> cases hr : hasRun3 (d :: l) <;> simp_all

/-- The duplication test equals the existence of a big `.`-matchable run,
stated with a pending run prefix. -/
theorem hasRun3_eq_any_aux (t : List Char) : ∀ (c : Char) (k : Nat), 0 < k →
    hasRun3 (List.replicate k c ++ t) =
      (runsAux c k t).any (fun p => decide (3 ≤ p.2) && jsDotChar p.1) := by
  induction t with
  | nil =>
    intro c k hk
    rw [show List.replicate k c ++ [] = List.replicate k c from by simp]
    rw [hasRun3_replicate, show runsAux c k [] = [(c, k)] from rfl]
    simp
  | cons d r ih =>
    intro c k hk
    by_cases hd : d = c
    · subst hd
      rw [show List.replicate k d ++ d :: r = List.replicate (k + 1) d ++ r from by
            simp [List.replicate_succ', List.append_assoc]]
      rw [show runsAux d k (d :: r) = runsAux d (k + 1) r from by
            rw [show runsAux d k (d :: r) = if d = d then runsAux d (k+1) r
                  else (d, k) :: runsAux d 1 r from rfl, if_pos rfl]]
      exact ih d (k + 1) (by omega)
    · rw [hasRun3_replicate_append c d r hd k]
      rw [show runsAux c k (d :: r) = (c, k) :: runsAux d 1 r from by
            rw [show runsAux c k (d :: r) = if d = c then runsAux c (k+1) r
                  else (c, k) :: runsAux d 1 r from rfl, if_neg hd]]
      rw [show (d :: r) = List.replicate 1 d ++ r from rfl]
      rw [ih d 1 (by omega)]
      simp

/-- The duplication test equals the existence of a run of three or more of
a `.`-matchable character. -/
theorem hasRun3_eq_any (l : List Char) :
    hasRun3 l = (runsL l).any (fun p => decide (3 ≤ p.2) && jsDotChar p.1) := by
  cases l with
  | nil => rfl
  | cons c r =>
    have h := hasRun3_eq_any_aux r c 1 (by omega)
    rw [show List.replicate 1 c ++ r = c :: r from rfl] at h
    exact h

/-- List-level form of the duplication-repair theorem. -/
theorem fixDuplication_runs (l : List Char) :
    runsL (jsFixDuplication l) = (runsL l).map stepRun := by
  unfold jsFixDuplication
  by_cases h : hasRun3 l = true
  · rw [if_pos h]
    exact runsL_collapseRuns l
  · rw [if_neg h]
    rw [hasRun3_eq_any] at h
    rw [Bool.not_eq_true] at h
    have hall : ∀ p ∈ runsL l, stepRun p = p := by
      intro p hp
      have hb := List.any_eq_false.mp h p hp
      unfold stepRun
      rw [if_neg (by simpa using hb)]
    calc runsL l = (runsL l).map id := by rw [List.map_id]
    _ = (runsL l).map stepRun := by
        exact (List.map_congr_left (fun a ha => (hall a ha).symm)).symm ▸ rfl

/-! ### Claims -/

/-- C1 counterexample: with a first (and only, and matching) disqualification
rule whose terminal message is the empty string, the turn returns the fixed
default apology instead of the rule's terminal message, so the claim's
"returns the first matching rule's terminal message" fails as stated. -/
theorem C1_counterexample :
    isDisqualified svcC1.memory "hello" = some "" ∧
    (processUserInput svcC1 "hello" none).2.disqualified = true ∧
    (processUserInput svcC1 "hello" none).2.response ≠ some "" := by decide

/-- C1 (amended): for every utterance matching some disqualification rule
(and missing the knowledge base), `processUserInput` returns the first
matching rule's terminal message — or the fixed default when that message is
empty — with `nextState = none` and `disqualified = true`, and leaves the
whole service state (in particular `currentState`) unchanged. -/
theorem C1_disqualification_terminal (svc : KaniService) (input msg : String)
    (o : Option String)
    (hKB : findKnowledgeBaseResponse svc.memory input = none)
    (hDq : isDisqualified svc.memory input = some msg) :
    processUserInput svc input o =
      (svc, { response := some (if msg = "" then defaultDisqMsg else msg),
              nextState := none, disqualified := true }) := by
  simp only [processUserInput, hKB, processAfterKnowledge, hDq]

/-- C1 witness: the theorem applied to a concrete matching utterance. -/
theorem C1_witness :
    processUserInput svcC1b "I want to cancel" none =
      (svcC1b,
       { response := some (if "We only serve businesses." = "" then defaultDisqMsg
                           else "We only serve businesses."),
         nextState := none, disqualified := true }) :=
  C1_disqualification_terminal svcC1b "I want to cancel" "We only serve businesses." none
    (by decide) (by decide)

/-- C2 counterexample: `matchesCondition "ABC" "exact:abc"` is `true`, not
`false` — the matcher lower-cases both the utterance and the condition
before the `exact:` comparison. -/
theorem C2_counterexample : ¬ (matchesCondition "ABC" "exact:abc" = false) := by decide

/-- C2 (amended): under `exact:` the matcher compares the trimmed
lower-cased utterance with the trimmed lower-cased condition text, so
`matches("ABC","exact:abc") == true` and `exact:` is case-insensitive —
like `contains:` and the regex forms — while still requiring full-string
equality. -/
theorem C2_exact_case_insensitive :
    matchesCondition "ABC" "exact:abc" = true ∧
    matchesCondition "abc" "exact:ABC" = true ∧
    matchesCondition "ABCd" "exact:abc" = false ∧
    matchesCondition "xABCx" "contains:abc" = true ∧
    matchesCondition "AxxC" "a*c" = true ∧
    (∀ (u s : String), s.data.contains ',' = false →
      (matchesCondition u ("exact:" ++ s) = true ↔
        jsTrimL (jsLowerL u.data) = jsTrimL (jsLowerL s.data))) := by
  refine ⟨by decide, by decide, by decide, by decide, by decide, ?_⟩
  intro u s h
  rw [matchesCondition_exact u s h]
  simp

/-- C2 witness: the universal part applied to the claim's own example. -/
theorem C2_witness :
    ("abc".data.contains ',' = false) ∧
    (matchesCondition "ABC" ("exact:" ++ "abc") = true ↔
      jsTrimL (jsLowerL "ABC".data) = jsTrimL (jsLowerL "abc".data)) :=
  ⟨by decide, C2_exact_case_insensitive.2.2.2.2.2 "ABC" "abc" (by decide)⟩

/-- C3 counterexample: `matchesCondition "nope" "yes,no"` is `true`, not
`false` — the sub-condition `"no"` matches through the plain substring
fallback, since `"nope"` contains `"no"`. -/
theorem C3_counterexample : ¬ (matchesCondition "nope" "yes,no" = false) := by decide

/-- C3 (amended): a condition containing `','` is split on commas and the
trimmed lower-cased sub-conditions are OR'd against the lower-cased trimmed
utterance; `matches("yes please","yes,no") == true`, and
`matches("nope","yes,no") == true` as well (substring fallback). -/
theorem C3_comma_split_or :
    matchesCondition "yes please" "yes,no" = true ∧
    matchesCondition "nope" "yes,no" = true ∧
    (∀ (u c : String), c.data.contains ',' = true →
      matchesCondition u c =
        ((jsSplitCharL ',' c.data).map (fun o => jsLowerL (jsTrimL o))).any
          (fun o => matchesSingleCondition (jsTrimL (jsLowerL u.data)) o)) := by
  refine ⟨by decide, by decide, ?_⟩
  intro u c h
  unfold matchesCondition
  have hne : jsLowerL c.data ≠ "any".data := by
    have hx := lower_eq_any_no_comma c.data h
    simp only [eq_iff_iff, iff_false] at hx
    exact hx
  rw [if_neg hne, if_pos h]

/-- C3 witness: the universal part applied to the claim's own example. -/
theorem C3_witness :
    ("yes,no".data.contains ',' = true) ∧
    matchesCondition "yes please" "yes,no" =
      ((jsSplitCharL ',' "yes,no".data).map (fun o => jsLowerL (jsTrimL o))).any
        (fun o => matchesSingleCondition (jsTrimL (jsLowerL "yes please".data)) o) :=
  ⟨by decide, C3_comma_split_or.2.2 "yes please" "yes,no" (by decide)⟩

/-- C4: from a fresh session, after `updateTokenUsage 40 10` then
`updateTokenUsage 30 5`, the counters are 70/15/85 and the estimated cost
equals the cost recomputed from the cumulative totals at the configured
per-1000-token GPT-3.5 rates. -/
theorem C4_token_accounting_cumulative (b : Business) :
    (updateTokenUsage (updateTokenUsage (mkMemory b) 40 10) 30 5).tokenUsage.inputTokens = 70 ∧
    (updateTokenUsage (updateTokenUsage (mkMemory b) 40 10) 30 5).tokenUsage.outputTokens = 15 ∧
    (updateTokenUsage (updateTokenUsage (mkMemory b) 40 10) 30 5).tokenUsage.totalTokens = 85 ∧
    (updateTokenUsage (updateTokenUsage (mkMemory b) 40 10) 30 5).tokenUsage.estimatedCost =
      (70 : ℚ) / 1000 * gpt35Input + (15 : ℚ) / 1000 * gpt35Output := by
  refine ⟨rfl, rfl, rfl, ?_⟩
  show calculateTokenCost (0 + 40 + 30) (0 + 10 + 5) defaultModel = _
  rw [calcCost_default_eq]
  norm_num

/-- C4 witness: the accounting at a concrete configuration. -/
theorem C4_witness :
    (updateTokenUsage (updateTokenUsage (mkMemory bizA) 40 10) 30 5).tokenUsage.totalTokens = 85 :=
  (C4_token_accounting_cumulative bizA).2.2.1

/-- C5 counterexample: on a service configured with model `"gpt-4"`, the
cost recomputed by `updateTokenUsage` still uses the GPT-3.5 rates — the
session's model never reaches `calculateTokenCost` — contradicting the
claim that the GPT-4 rates are applied when the session's model starts with
`"gpt-4"`. -/
theorem C5_counterexample :
    svcA4.modelName = "gpt-4" ∧
    (updateTokenUsage svcA4.memory 1000 1000).tokenUsage.estimatedCost =
      (1000 : ℚ) / 1000 * gpt35Input + (1000 : ℚ) / 1000 * gpt35Output ∧
    (updateTokenUsage svcA4.memory 1000 1000).tokenUsage.estimatedCost ≠
      (1000 : ℚ) / 1000 * gpt4Input + (1000 : ℚ) / 1000 * gpt4Output := by
  refine ⟨rfl, ?_, ?_⟩
  · show calculateTokenCost (0 + 1000) (0 + 1000) defaultModel = _
    rw [calcCost_default_eq]
    norm_num
  · show calculateTokenCost (0 + 1000) (0 + 1000) defaultModel ≠ _
    rw [calcCost_default_eq]
    norm_num [gpt35Input, gpt35Output, gpt4Input, gpt4Output]

/-- C5 (amended): `updateTokenUsage` recomputes the estimated cost from the
cumulative totals through `calculateTokenCost` at the configured default
model (`"gpt-3.5-turbo"`, not in the GPT-4 family), so the GPT-3.5 rates are
applied regardless of the session's configured model name. -/
theorem C5_cost_rates_use_default_model (m : Memory) (i o : Nat) :
    jsStartsWithL "gpt-4".data defaultModel.data = false ∧
    (updateTokenUsage m i o).tokenUsage.estimatedCost =
      ((m.tokenUsage.inputTokens + i : Nat) : ℚ) / 1000 * gpt35Input +
      ((m.tokenUsage.outputTokens + o : Nat) : ℚ) / 1000 * gpt35Output := by
  exact ⟨gpt4_not_default, calcCost_default_eq _ _⟩

/-- C5 witness: the amended cost equation at a concrete session. -/
theorem C5_witness :
    (updateTokenUsage (mkMemory bizA) 1000 1000).tokenUsage.estimatedCost =
      (((mkMemory bizA).tokenUsage.inputTokens + 1000 : Nat) : ℚ) / 1000 * gpt35Input +
      (((mkMemory bizA).tokenUsage.outputTokens + 1000 : Nat) : ℚ) / 1000 * gpt35Output :=
  (C5_cost_rates_use_default_model (mkMemory bizA) 1000 1000).2

/-- C6 counterexample: a reachable session in a state whose expected-input
hint is `"reason or objection"`, where the utterance `"what is my name?"` —
a long question about the stored contextual fact `userName` — makes
`shouldUseLLM` return `false`, contradicting "returns true ... for every
utterance". -/
theorem C6_counterexample :
    ((objGet memC6.stateDefinitions memC6.currentState).bind (fun sd => sd.expectedInputs) =
      some "reason or objection") ∧
    shouldUseLLM memC6 "what is my name?" = false := by decide

/-- C6 (amended): whenever the current state's expected-input hint contains
one of reason/objection/explanation/description/feedback, the escalation
decision returns `true` for every utterance, regardless of the state's
transition conditions, with exactly one exception: an utterance that ends
with `?`, is longer than 10 characters, and mentions an already-stored
contextual fact's key takes the earlier question branch and returns
`false` (answered from memory). Stated as an equality, so both the `true`
region (including long questions that mention no stored fact) and the
`false` region are settled. -/
theorem C6_open_ended_hint_escalates (m : Memory) (u : String)
    (hHint : hintIndicatesOpenEnded m = true) :
    shouldUseLLM m u =
      !(jsEndsWithL "?".data u.data && decide (u.data.length > 10) &&
        questionAboutKnownData m u) := by
  unfold shouldUseLLM
  cases hq : (jsEndsWithL "?".data u.data && decide (u.data.length > 10)) with
  | true =>
    simp only [hq, Bool.true_and, if_true]
  | false =>
    simp only [hq, Bool.false_and, Bool.not_false, Bool.false_eq_true, if_false]
    unfold hintIndicatesOpenEnded at hHint
    cases hsd : objGet m.stateDefinitions m.currentState with
    | none => simp
    | some sd =>
      rw [hsd] at hHint
      simp at hHint
      cases ht : sd.transitions with
      | none => simp [ht]
      | some ts =>
        simp [ht]
        tauto

/-- C6 witness: under the `"reason or objection"` hint, the theorem applied
to a long question mentioning no stored fact (escalates) and to a plain
objection utterance (escalates). -/
theorem C6_witness :
    shouldUseLLM memC6 "what is the meaning of life?" = true ∧
    shouldUseLLM memC6 "I just do not want to" = true := by
  constructor
  · rw [C6_open_ended_hint_escalates memC6 "what is the meaning of life?" (by decide)]
    decide
  · rw [C6_open_ended_hint_escalates memC6 "I just do not want to" (by decide)]
    decide

/-- C7 counterexample: a run of three newlines survives the repair
unchanged — JS `.` does not match line terminators — contradicting "any run
of three or more identical consecutive characters" being collapsed. -/
theorem C7_counterexample :
    jsFixDuplication "\n\n\n".data = "\n\n\n".data ∧
    runsL "\n\n\n".data = [('\n', 3)] := by decide

/-- C7 (amended): in run-length view, the post-processing maps every
maximal run through `stepRun`: a run of three or more identical consecutive
characters other than line terminators is collapsed to exactly two, and
every other run — line-terminator runs and runs of length at most two — is
left unchanged. -/
theorem C7_collapse_runs (s : String) :
    runsL (jsFixDuplication s.data) = (runsL s.data).map stepRun :=
  fixDuplication_runs s.data

/-- C7 witness: the repair at a concrete string. -/
theorem C7_witness :
    runsL (jsFixDuplication "hellooo world".data) =
      (runsL "hellooo world".data).map stepRun :=
  C7_collapse_runs "hellooo world"

/-- C8 counterexample: on a model failure the fixed apology is returned,
but the session state is not unaffected — the response log has gained the
turn's entry (stored before the model call). -/
theorem C8_counterexample :
    (processUserInput svcA "hmm" none).2.response = some modelFailureMsg ∧
    (processUserInput svcA "hmm" none).1.memory.userResponses ≠ svcA.memory.userResponses := by
  decide

/-- C8 (amended): if the model invocation throws on a turn where no
transition condition matched, `processUserInput` returns the fixed apology
with `nextState = none` and `disqualified = false`, no exception escapes,
and `currentState` and the token usage are unchanged, so the same state can
be retried — but the turn's earlier mutations remain: the fallback flag is
set and the response log keeps the stored utterance. -/
theorem C8_model_failure_fixed_response (svc : KaniService) (input : String)
    (hKB : findKnowledgeBaseResponse svc.memory input = none)
    (hDq : isDisqualified svc.memory input = none)
    (hOpenai : svc.openaiInitialized = true)
    (hNoTrans :
      (getNextState (storeResponse svc.memory svc.memory.currentState input true) input).2 = none) :
    (processUserInput svc input none).2 =
      { response := some modelFailureMsg, nextState := none, disqualified := false } ∧
    (processUserInput svc input none).1.memory.currentState = svc.memory.currentState ∧
    (processUserInput svc input none).1.memory.tokenUsage = svc.memory.tokenUsage ∧
    (processUserInput svc input none).1.memory.usedLLM = true ∧
    (processUserInput svc input none).1.memory.userResponses =
      objSet svc.memory.userResponses svc.memory.currentState
        { value := input, valid := true } := by
  have h1 := getNextState_eq_of_none _ _ hNoTrans
  simp only [processUserInput, hKB, processAfterKnowledge, hDq, processTurnAfterChecks, h1,
    llmFallbackPath, hOpenai]
  simp [storeResponse_currentState, storeResponse_tokenUsage, storeResponse_userResponses]

/-- C8 witness: the failure path at a concrete session and utterance. -/
theorem C8_witness :
    (processUserInput svcA "hmm" none).2 =
      { response := some modelFailureMsg, nextState := none, disqualified := false } ∧
    (processUserInput svcA "hmm" none).1.memory.currentState = svcA.memory.currentState ∧
    (processUserInput svcA "hmm" none).1.memory.tokenUsage = svcA.memory.tokenUsage ∧
    (processUserInput svcA "hmm" none).1.memory.usedLLM = true ∧
    (processUserInput svcA "hmm" none).1.memory.userResponses =
      objSet svcA.memory.userResponses svcA.memory.currentState
        { value := "hmm", valid := true } :=
  C8_model_failure_fixed_response svcA "hmm" (by decide) (by decide) (by decide) (by decide)

/-- C9: with the knowledge item `where are you located` answering
`We are in (userCompany).` and the stored contextual fact
`userCompany = "Acme"`, resolution of `"Where are you located?"` returns
`"We are in Acme."`; without the stored fact, the placeholder is left
verbatim. -/
theorem C9_knowledge_base_interpolation :
    findKnowledgeBaseResponse memKB "Where are you located?" = some "We are in Acme." ∧
    findKnowledgeBaseResponse (mkMemory bizKB) "Where are you located?" =
      some "We are in \x7buserCompany\x7d." := by decide

/-- C10: on any turn that reaches the generative fallback, the rule-based
re-run inside `determineStateFromLLMResponse` — the same utterance matched
by the same deterministic matcher over the same state definitions and
current state — returns `none`, so the fallback turn's non-null `nextState`
can only come from scanning the model's reply for a target state's display
name. -/
theorem C10_fallback_rerun_null (svc : KaniService) (input reply : String)
    (hKB : findKnowledgeBaseResponse svc.memory input = none)
    (hDq : isDisqualified svc.memory input = none)
    (hOpenai : svc.openaiInitialized = true)
    (hFall : reachesLLMFallback svc input = true) :
    (∀ mm : Memory, mm.stateDefinitions = (memAfterRuleCheck svc input).stateDefinitions →
       mm.currentState = (memAfterRuleCheck svc input).currentState →
       (getNextState mm input).2 = none) ∧
    (processUserInput svc input (some reply)).2.nextState =
      scanStateNames svc (memAfterRuleCheck svc input) (llmReplyText reply) := by
  have hre := rerun_find_none svc input hFall
  constructor
  · intro mm h1 h2
    unfold getNextState
    rw [h1, h2, hre]
  · simp only [processUserInput, hKB, processAfterKnowledge, hDq, processTurnAfterChecks]
    unfold reachesLLMFallback at hFall
    unfold memAfterRuleCheck at hre
    unfold memAfterRuleCheck
    unfold getNextState at hFall hre
    unfold getNextState
    cases hf : findMatchingTransition
        (storeResponse svc.memory svc.memory.currentState input true).stateDefinitions
        (storeResponse svc.memory svc.memory.currentState input true).currentState input with
    | none =>
      simp only [hf] at hre
      simp only [hf, llmFallbackPath, hOpenai, Bool.not_true, Bool.false_eq_true, if_false,
        determineStateFromLLMResponse, updateTokenUsage, getNextState, llmReplyText]
      simp [hre]
      apply scanStateNames_congr <;> rfl
    | some t =>
      simp only [hf] at hre hFall
      simp at hFall
      simp only [hf, hFall, llmFallbackPath, hOpenai, Bool.not_true, Bool.false_eq_true, if_false,
        determineStateFromLLMResponse, updateTokenUsage, getNextState, llmReplyText]
      simp [hre]
      apply scanStateNames_congr <;> rfl

/-- C10 witness: the fallback-turn equation at a concrete session. -/
theorem C10_witness :
    (processUserInput svcA "hmm" (some "ok")).2.nextState =
      scanStateNames svcA (memAfterRuleCheck svcA "hmm") (llmReplyText "ok") :=
  (C10_fallback_rerun_null svcA "hmm" "ok" (by decide) (by decide) (by decide) (by decide)).2

end Kani
